import Mathlib

/-!
Verification development for the SynthesisTalk backend
(context assembly, reasoning narratives, LLM provider chain,
feedback analysis, document search).

Python text is embedded shallowly:
* strings are Lean `String`s; Python `str.lower`, `str.split` and the
  regex word scan are given structural (kernel-reducible) definitions;
* the float token estimate `wordCount * 1.3` is represented exactly in
  tenths of an estimated token (`wordCount * 13` against `budget * 10`),
  an exact-arithmetic model of the float computation;
* database reads, network calls and other collaborator I/O enter as
  explicit parameters (an `Except` value models a call that may raise);
* Python coroutine objects (an `async def` called without `await`)
  are modelled by an explicit `PyValue.coroutine` constructor.
-/

set_option maxRecDepth 20000

/-! ## Text helpers (str.lower, str.split, substring membership) -/

/-- Python `str.lower`, character by character (ASCII case mapping). -/
def strLower (s : String) : String := ⟨s.data.map Char.toLower⟩

/-- Splits a character list at separators chosen by `p`, dropping the
separators and returning the maximal runs of non-separator characters
(no empty runs), with `acc` the current run reversed. -/
def splitAux (p : Char → Bool) : List Char → List Char → List (List Char)
  | [], acc => if acc.isEmpty then [] else [acc.reverse]
  | c :: rest, acc =>
    if p c then
      (if acc.isEmpty then splitAux p rest [] else acc.reverse :: splitAux p rest [])
    else splitAux p rest (c :: acc)

/-- Python `str.split()` with no argument: whitespace-separated words,
empty strings dropped. -/
def pySplit (s : String) : List String :=
  (splitAux Char.isWhitespace s.data []).map List.asString

/-- Word characters of the regex class `\w`. -/
def isWordChar (c : Char) : Bool := c.isAlphanum || c == '_'

/-- Python `re.findall(r'\b\w+\b', s)`: the maximal runs of word
characters of `s`. -/
def findWords (s : String) : List String :=
  (splitAux (fun c => !(isWordChar c)) s.data []).map List.asString

/-- Containment of `n` as a contiguous subsequence of a character list. -/
def listContainsSeq (n : List Char) : List Char → Bool
  | [] => n.isEmpty
  | c :: rest => List.isPrefixOf n (c :: rest) || listContainsSeq n rest

/-- Python `needle in hay` on strings. -/
def strContains (hay needle : String) : Bool := listContainsSeq needle.data hay.data

/-! ## models/api_models.py: the two enums used by the core -/

/-- QuestionType of models/api_models.py. -/
inductive QuestionType where
  | factual
  | analytical
  | creative
  | procedural
  | comparative
deriving DecidableEq, Repr

/-- Enum `.value` strings of QuestionType. -/
def QuestionType.value : QuestionType → String
  | .factual => "factual"
  | .analytical => "analytical"
  | .creative => "creative"
  | .procedural => "procedural"
  | .comparative => "comparative"

/-- ReasoningType of models/api_models.py. -/
inductive ReasoningType where
  | chain_of_thought
  | react
  | hybrid
deriving DecidableEq, Repr

/-! ## services/reasoning_service.py -/

def analytical_keywords : List String :=
  ["analyze", "compare", "contrast", "evaluate", "assess", "why", "how", "explain"]

def procedural_keywords : List String :=
  ["how to", "step", "process", "procedure", "method", "guide"]

def creative_keywords : List String :=
  ["create", "generate", "design", "brainstorm", "imagine", "suggest"]

def comparative_keywords : List String :=
  ["vs", "versus", "better", "difference", "similar", "compare"]

/-- Tests whether the lowercased message contains some keyword of the set. -/
def hasKeyword (keywords : List String) (user_message : String) : Bool :=
  keywords.any (fun k => strContains (strLower user_message) k)

/-- classify_question of services/reasoning_service.py. -/
def classify_question (user_message : String) : QuestionType :=
  if hasKeyword analytical_keywords user_message then .analytical
  else if hasKeyword procedural_keywords user_message then .procedural
  else if hasKeyword creative_keywords user_message then .creative
  else if hasKeyword comparative_keywords user_message then .comparative
  else .factual

def stop_words : List String :=
  ["the", "a", "an", "and", "or", "but", "in", "on", "at", "to", "for", "of", "with", "by"]

/-- extract_key_concepts of services/reasoning_service.py.  The Python
source computes `list(set(key_concepts))[:10]`; the enumeration order of a
Python `set` is not fixed by the language (string hashing is randomized
per process), so the embedding takes the enumeration as an explicit
parameter `setOrder`.  A faithful `setOrder` returns some permutation of
the distinct elements of its argument. -/
def extract_key_concepts (setOrder : List String → List String) (text : String) : List String :=
  let words := findWords (strLower text)
  let key_concepts := words.filter (fun w => w.length > 3 && !(stop_words.contains w))
  (setOrder key_concepts).take 10

/-- Validity of a `setOrder` parameter: `list(set(l))` is some permutation
of the distinct elements of `l`. -/
def ValidSetOrder (setOrder : List String → List String) (l : List String) : Prop :=
  (setOrder l).Perm l.dedup

/-- The helper _analyze_intent of services/reasoning_service.py. -/
def _analyze_intent (user_message : String) : String :=
  if strContains user_message "?" then "Seeking information or explanation"
  else if ["help", "how", "guide"].any (fun w => strContains (strLower user_message) w) then
    "Requesting assistance or guidance"
  else if ["analyze", "compare", "evaluate"].any (fun w => strContains (strLower user_message) w) then
    "Requesting analysis or evaluation"
  else "General inquiry or discussion"

/-- The helper _analyze_context of services/reasoning_service.py. -/
def _analyze_context (context : String) : List String :=
  (if context.length > 1000 then ["Rich context available with detailed information"]
   else if context.length > 300 then ["Moderate context available"]
   else ["Limited context available"])
  ++ (if strContains context "===" then ["Multiple information sources present"] else [])
  ++ (if strContains context "📄" then ["Document-based information available"] else [])
  ++ (if strContains context "🌐" then ["Web-based information available"] else [])

/-- The helper _get_reasoning_strategy of services/reasoning_service.py. -/
def _get_reasoning_strategy (question_type : QuestionType) : List String :=
  match question_type with
  | .factual =>
      ["1. Identify specific facts needed",
       "2. Cross-reference available information",
       "3. Provide accurate, verified information"]
  | .analytical =>
      ["1. Break down the problem into components",
       "2. Analyze relationships and patterns",
       "3. Synthesize insights and conclusions"]
  | .procedural =>
      ["1. Identify the goal or outcome",
       "2. Break down into sequential steps",
       "3. Provide clear, actionable instructions"]
  | .creative =>
      ["1. Generate multiple perspectives",
       "2. Combine ideas in novel ways",
       "3. Provide innovative solutions"]
  | .comparative =>
      ["1. Identify comparison criteria",
       "2. Analyze similarities and differences",
       "3. Provide balanced evaluation"]

/-- The helper _recommend_tools of services/reasoning_service.py. -/
def _recommend_tools (user_message : String) (available_tools : List String) : List String :=
  let m := strLower user_message
  let r1 :=
    if ["current", "latest", "recent", "now", "today"].any (fun w => strContains m w)
        && available_tools.contains "web_search" then ["web_search"] else []
  let r2 :=
    if ["document", "file", "pdf", "text"].any (fun w => strContains m w)
        && available_tools.contains "document_search" then ["document_search"] else []
  let r3 :=
    if ["calculate", "compute", "math", "number"].any (fun w => strContains m w)
        && available_tools.contains "calculation" then ["calculation"] else []
  let recommendations := r1 ++ r2 ++ r3
  if recommendations.isEmpty then ["web_search"] else recommendations

/-- The helper _get_information_strategy of services/reasoning_service.py. -/
def _get_information_strategy (question_type : QuestionType) : List String :=
  match question_type with
  | .factual =>
      ["Search for authoritative sources",
       "Verify information accuracy",
       "Get the most current data"]
  | .analytical =>
      ["Gather comprehensive background information",
       "Look for multiple perspectives",
       "Find relevant case studies or examples"]
  | .procedural =>
      ["Find step-by-step guides",
       "Look for best practices",
       "Search for common pitfalls to avoid"]
  | .creative =>
      ["Gather inspiration from various sources",
       "Look for innovative approaches",
       "Find diverse examples and ideas"]
  | .comparative =>
      ["Gather information on all items being compared",
       "Find standardized comparison criteria",
       "Look for expert evaluations"]

/-- Python truthiness of `context and context.strip()`: the string has
some non-whitespace character. -/
def hasVisibleText (s : String) : Bool := s.data.any (fun c => !c.isWhitespace)

/-- chain_of_thought_reasoning of services/reasoning_service.py. -/
def chain_of_thought_reasoning (setOrder : List String → List String)
    (context user_message : String) (question_type : Option QuestionType) : String :=
  let qt := match question_type with
    | some q => q
    | none => classify_question user_message
  let key_concepts := extract_key_concepts setOrder user_message
  let steps1 : List String :=
    ["🎯 **Problem Analysis:**",
     "   - Question type: " ++ qt.value,
     "   - Key concepts: " ++ String.intercalate ", " (key_concepts.take 5),
     "   - User intent: " ++ _analyze_intent user_message]
  let steps2 : List String :=
    if hasVisibleText context then
      "\n📚 **Context Analysis:**" :: (_analyze_context context).map (fun i => "   - " ++ i)
    else []
  let steps3 : List String :=
    ("\n🧠 **Reasoning Strategy for " ++ qt.value ++ " question:**")
      :: (_get_reasoning_strategy qt).map (fun s => "   " ++ s)
  let steps4 : List String :=
    ["\n🔄 **Information Synthesis:**",
     "   - Combining context knowledge with question requirements",
     "   - Identifying gaps or areas needing clarification",
     "   - Structuring response for clarity and completeness"]
  String.intercalate "\n" (steps1 ++ steps2 ++ steps3 ++ steps4)

/-- react_reasoning of services/reasoning_service.py. -/
def react_reasoning (setOrder : List String → List String)
    (context user_message : String) (available_tools : Option (List String)) : String :=
  let tools := available_tools.getD ["web_search", "document_search", "analysis"]
  let question_type := classify_question user_message
  let key_concepts := extract_key_concepts setOrder user_message
  let steps : List String :=
    ["🤔 **Thought 1: Problem Assessment**",
     "   The user is asking about: " ++ String.intercalate ", " (key_concepts.take 3),
     "   This appears to be a " ++ question_type.value ++ " question.",
     "\n🎯 **Action 1: Information Gathering**",
     "   Need to gather more information using: "
       ++ String.intercalate ", " (_recommend_tools user_message tools),
     "\n🤔 **Thought 2: Information Strategy**",
     "   Based on the question type, I should:"]
    ++ (_get_information_strategy question_type).map (fun s => "   - " ++ s)
    ++ ["\n🔍 **Action 2: Information Processing**",
        "   - Analyzing available context and information",
        "   - Identifying key relationships and patterns",
        "   - Structuring information for comprehensive response",
        "\n🤔 **Thought 3: Response Strategy**",
        "   Now I can provide a comprehensive answer by:",
        "   - Using the processed information",
        "   - Addressing the specific question type",
        "   - Ensuring clarity and completeness"]
  String.intercalate "\n" steps

/-- hybrid_reasoning of services/reasoning_service.py.  The unused
`context` argument is threaded to both phases exactly as in the source. -/
def hybrid_reasoning (setOrder : List String → List String)
    (context user_message : String) (available_tools : Option (List String)) : String :=
  let question_type := classify_question user_message
  if question_type = .factual ∨ question_type = .procedural then
    let react_part := react_reasoning setOrder context user_message available_tools
    let cot_part := chain_of_thought_reasoning setOrder context user_message (some question_type)
    "**🔄 HYBRID REASONING APPROACH**\n\n**Phase 1 - Information & Action Planning:**\n"
      ++ react_part ++ "\n\n**Phase 2 - Analytical Reasoning:**\n" ++ cot_part
  else
    let cot_part := chain_of_thought_reasoning setOrder context user_message (some question_type)
    let react_part := react_reasoning setOrder context user_message available_tools
    "**🔄 HYBRID REASONING APPROACH**\n\n**Phase 1 - Analytical Reasoning:**\n"
      ++ cot_part ++ "\n\n**Phase 2 - Action & Validation:**\n" ++ react_part

/-! ## utils/text_utils.py -/

/-- Modelled from the spec: the tokenizer of the external tiktoken
library (not part of this repository) is specified in section 4.1 only
through its encode/decode interface; the model makes a token one
character of the text, an exact prefix-preserving encode/decode pair. -/
def tokEncode (s : String) : List Char := s.data

/-- Modelled from the spec: decoding for `tokEncode`. -/
def tokDecode (l : List Char) : String := ⟨l⟩

/-- trim_text_to_token_limit of utils/text_utils.py over the modelled
tokenizer: return the text unchanged when its token count is within
`max_tokens`, otherwise decode the first `max_tokens` tokens. -/
def trim_text_to_token_limit (text : String) (max_tokens : Nat) : String :=
  let tokens := tokEncode text
  if tokens.length ≤ max_tokens then text
  else tokDecode (tokens.take max_tokens)

/-! ## services/context_service.py: ContextBuilder._combine_context_parts -/

/-- One entry of `context_parts`: a content blob and its priority
(lower number = higher priority). -/
structure ContextPart where
  content : String
  priority : Nat
deriving DecidableEq, Repr

/-- The running token estimate `len(s.split()) * 1.3`, represented
exactly in tenths of an estimated token: `len(s.split()) * 13`. -/
def estTokens10 (s : String) : ℤ := ((pySplit s).length : ℤ) * 13

/-- One entry of the combined output list: a whole fragment content, or
the single token-trimmed fragment (rendered later as
`trim_text_to_token_limit content max_tokens` followed by the
`"\n[Content truncated...]"` marker). -/
inductive CombinedItem where
  | whole (content : String)
  | truncatedPart (content : String) (max_tokens : Nat)
deriving DecidableEq, Repr

/-- The loop of _combine_context_parts, with all token quantities in
tenths of a token: `budget10 = max_context_tokens * 10`, the 100-token
buffer is 1000, the 50-token threshold is 500, and
`int(remaining_tokens / 1.3)` is `remaining10 / 13` (both
truncate-toward-zero; `remaining10` is positive where used). -/
def combineLoop (budget10 : ℤ) (current : ℤ) : List ContextPart → List CombinedItem
  | [] => []
  | p :: rest =>
    let part_tokens := estTokens10 p.content
    if current + part_tokens < budget10 then
      .whole p.content :: combineLoop budget10 (current + part_tokens) rest
    else
      let remaining := budget10 - current - 1000
      if remaining > 500 then [.truncatedPart p.content (Int.toNat (remaining / 13))]
      else []

/-- Ascending priority, the sort key of `context_parts.sort`. -/
def partLE (a b : ContextPart) : Prop := a.priority ≤ b.priority

instance : DecidableRel partLE := fun a b => Nat.decLe a.priority b.priority

instance : IsTotal ContextPart partLE := ⟨fun a b => Nat.le_total a.priority b.priority⟩

instance : IsTrans ContextPart partLE := ⟨fun _ _ _ h1 h2 => Nat.le_trans h1 h2⟩

/-- Python `list.sort` is a stable sort; it is embedded as insertion
sort, which is extensionally the unique stable sort for the key. -/
def sortParts (parts : List ContextPart) : List ContextPart :=
  List.insertionSort partLE parts

/-- The item-level result of _combine_context_parts: sort stably by
ascending priority, then run the greedy loop with the running estimate
initialized to the user-message estimate.  `max_context_tokens`
defaults to 8000 in ContextBuilder. -/
def combineItems (context_parts : List ContextPart) (user_message : String)
    (max_context_tokens : Nat) : List CombinedItem :=
  combineLoop ((max_context_tokens : ℤ) * 10) (estTokens10 user_message) (sortParts context_parts)

/-- Rendering of one combined item to its output text. -/
def renderItem : CombinedItem → String
  | .whole c => c
  | .truncatedPart c m => trim_text_to_token_limit c m ++ "\n[Content truncated...]"

/-- _combine_context_parts of services/context_service.py: the final
joined context string. -/
def _combine_context_parts (context_parts : List ContextPart) (user_message : String)
    (max_context_tokens : Nat) : String :=
  String.intercalate "\n\n" ((combineItems context_parts user_message max_context_tokens).map renderItem)

/-- The whole-fragment prefix the greedy loop admits: contents are
appended while the running estimate plus the own estimate stays
strictly below the budget, and the scan stops at the first fragment
that fails the test. -/
def greedyFulls (budget10 current : ℤ) : List ContextPart → List String
  | [] => []
  | p :: rest =>
    let part_tokens := estTokens10 p.content
    if current + part_tokens < budget10 then
      p.content :: greedyFulls budget10 (current + part_tokens) rest
    else []

/-- The contents of the whole (untrimmed) items of a combined list. -/
def wholeContents (items : List CombinedItem) : List String :=
  items.filterMap (fun i => match i with
    | .whole c => some c
    | .truncatedPart _ _ => none)

/-! ## services/context_service.py: ContextBuilder.build_context -/

/-- The bundle build_context returns: the dictionary keys `context`,
`reasoning`, `metadata["sources_used"]`, `metadata["error"]`,
`user_message` and `question_type`. -/
structure ContextBundle where
  context : String
  reasoning : Option String
  sources_used : List String
  error : Option String
  user_message : String
  question_type : Option QuestionType
deriving DecidableEq, Repr

/-- build_context of services/context_service.py at its recovery
boundary: the body of the `try` block performs collaborator I/O
(database and network), so its outcome enters as an `Except` value; a
raised exception carries the message `str(e)`.  The `except` branch
returns the degraded bundle of lines 149-157 of the source. -/
def build_context (user_message : String) (body : Except String ContextBundle) : ContextBundle :=
  match body with
  | .ok result => result
  | .error e =>
      { context := "I\x27ll help you with: " ++ user_message
        reasoning := none
        sources_used := []
        error := some e
        user_message := user_message
        question_type := none }

/-! ## llm_providers/llm_manager.py -/

/-- A Python runtime value returned by one provider call: a plain
string, or the un-awaited coroutine object produced by calling an
`async def` function (its body runs only when awaited; `result` is the
outcome of awaiting it). -/
inductive PyValue where
  | text (s : String)
  | coroutine (result : Except String String)
deriving Repr

/-- call_openai of llm_providers/openai_provider.py is `async def`:
calling it raises nothing and returns the un-awaited coroutine, whatever
the outcome of its body. -/
def call_openai (outcome : Except String String) : Except String PyValue :=
  .ok (.coroutine outcome)

/-- call_groq of llm_providers/groq_provider.py is a synchronous `def`:
calling it runs the body, returning the text or raising. -/
def call_groq (outcome : Except String String) : Except String PyValue :=
  outcome.map .text

/-- call_ngu of llm_providers/ngu_provider.py is `async def`, like
call_openai. -/
def call_ngu (outcome : Except String String) : Except String PyValue :=
  .ok (.coroutine outcome)

/-- The apology string of llm_manager.py line 36. -/
def apologyText (error_summary : String) : String :=
  "I apologize, but I\x27m currently unable to process your request due to technical issues with the AI services. Please try again later. Error details: " ++ error_summary

/-- The provider loop of get_llm_response: try each `(name, call)` in
order; a call that raises records `name ++ " failed: " ++ reason` and
moves on; a call that returns ends the loop at once; exhaustion returns
the apology string.  The second component instruments which provider
names were invoked (the per-attempt log lines of the source). -/
def llmLoop : List (String × Except String PyValue) → List String → List String →
    PyValue × List String
  | [], errors, attempted =>
      (.text (apologyText (String.intercalate "; " errors)), attempted)
  | (name, call) :: rest, errors, attempted =>
      match call with
      | .ok v => (v, attempted ++ [name])
      | .error e => llmLoop rest (errors ++ [name ++ " failed: " ++ e]) (attempted ++ [name])

/-- get_llm_response of llm_providers/llm_manager.py, parametrized by
the outcome each provider body would produce if run.  The provider list
is the fixed `[("OpenAI", call_openai), ("Groq", call_groq),
("NGU", call_ngu)]`. -/
def get_llm_response (openai groq ngu : Except String String) : PyValue × List String :=
  llmLoop [("OpenAI", call_openai openai), ("Groq", call_groq groq), ("NGU", call_ngu ngu)] [] []

/-- Awaiting a value, as `await get_llm_response(prompt)` does in
routers/chat.py line 158: awaiting a coroutine runs its body and can
raise; a string is returned as is (the isinstance branch). -/
def awaitValue : PyValue → Except String String
  | .text s => .ok s
  | .coroutine r => r

/-- The value the chat turn actually observes for the bot response:
`await get_llm_response(prompt)`. -/
def chat_llm_step (openai groq ngu : Except String String) : Except String String :=
  awaitValue (get_llm_response openai groq ngu).1

/-- Modelled from the spec: section 4.7 LLMProviderChain, the intended
semantics in which each provider body runs at its place in the chain
(every call awaited in turn).  The second component again instruments
the invoked provider names. -/
def get_llm_response_intended (openai groq ngu : Except String String) : String × List String :=
  match openai with
  | .ok t => (t, ["OpenAI"])
  | .error e1 =>
    match groq with
    | .ok t => (t, ["OpenAI", "Groq"])
    | .error e2 =>
      match ngu with
      | .ok t => (t, ["OpenAI", "Groq", "NGU"])
      | .error e3 =>
          (apologyText (String.intercalate "; "
            ["OpenAI failed: " ++ e1, "Groq failed: " ++ e2, "NGU failed: " ++ e3]),
           ["OpenAI", "Groq", "NGU"])

/-! ## services/feedback_analysis.py and build_prompt -/

/-- One increment of `patterns[word] = patterns.get(word, 0) + 1` on a
Python dict held as an insertion-ordered association list: bump the
entry in place, or append a fresh `(word, 1)` entry. -/
def bumpWord (table : List (String × Nat)) (w : String) : List (String × Nat) :=
  match table with
  | [] => [(w, 1)]
  | (k, v) :: rest => if k = w then (k, v + 1) :: rest else (k, v) :: bumpWord rest w

/-- The word-frequency table of analyze_feedback for one flagged
message set: lowercase each content, split on whitespace, accumulate
counts across the entire set. -/
def buildCounts (messages : List String) : List (String × Nat) :=
  ((messages.map (fun m => pySplit (strLower m))).flatten).foldl bumpWord []

/-- Descending count, the key of `sorted(..., key=lambda x: x[1],
reverse=True)`. -/
def countGE (a b : String × Nat) : Prop := b.2 ≤ a.2

instance : DecidableRel countGE := fun a b => Nat.decLe b.2 a.2

instance : IsTotal (String × Nat) countGE := ⟨fun a b => Nat.le_total b.2 a.2⟩

instance : IsTrans (String × Nat) countGE := ⟨fun _ _ _ h1 h2 => Nat.le_trans h2 h1⟩

/-- feedback_patterns: one sorted table of analyze_feedback of
services/feedback_analysis.py (the same computation serves the
thumbs-down and the thumbs-up message sets). -/
def feedback_patterns (messages : List String) : List (String × Nat) :=
  List.insertionSort countGE (buildCounts messages)

/-- The comprehension `[word for word, count in patterns if count > 2]`
of build_prompt, services/context_service.py lines 444-445: the avoid
phrases from the thumbs-down table and the encourage phrases from the
thumbs-up table. -/
def phrasesOverTwo (patterns : List (String × Nat)) : List String :=
  (patterns.filter (fun p => 2 < p.2)).map Prod.fst

/-- All words of a flagged message set, lowercased and split, in order. -/
def allFeedbackWords (messages : List String) : List String :=
  (messages.map (fun m => pySplit (strLower m))).flatten

/-! ## services/document_service.py -/

/-- A row of the Document table as search_documents reads it. -/
structure DocumentRec where
  id : Nat
  filename : String
  text : String
deriving DecidableEq, Repr

/-- calculate_text_similarity of services/document_service.py: Jaccard
similarity of the whitespace word sets, 0 when either set is empty. -/
def calculate_text_similarity (query text : String) : ℚ :=
  let query_words := (pySplit query).dedup
  let text_words := (pySplit text).dedup
  if query_words.isEmpty || text_words.isEmpty then 0
  else
    let intersection := query_words.inter text_words
    let uni := query_words.union text_words
    if uni.isEmpty then 0 else (intersection.length : ℚ) / (uni.length : ℚ)

/-- extract_relevant_snippet of services/document_service.py: scan a
40-word window around every position, keep the first best-scoring
window start (a query word scores when it occurs as a substring of the
lowercased joined window), return the words from 10 before to 30 after
that start, truncated to `max_length` characters with an ellipsis. -/
def extract_relevant_snippet (query text : String) (max_length : Nat) : String :=
  let query_words := pySplit (strLower query)
  let words := pySplit text
  let scored := (List.range words.length).map (fun i =>
    let window_start := i - 20
    let window_end := min words.length (i + 20)
    let window_text := strLower (String.intercalate " " ((words.drop window_start).take (window_end - window_start)))
    (query_words.countP (fun w => strContains window_text w), window_start))
  let best := scored.foldl (fun acc p => if p.1 > acc.1 then p else acc) (0, 0)
  let snippet_start := best.2 - 10
  let snippet_end := min words.length (best.2 + 30)
  let snippet := String.intercalate " " ((words.drop snippet_start).take (snippet_end - snippet_start))
  if snippet.length > max_length then ⟨snippet.data.take max_length⟩ ++ "..." else snippet

/-- One search hit as search_documents builds it. -/
structure SearchResult where
  document_id : Nat
  filename : String
  snippet : String
  similarity_score : ℚ
deriving DecidableEq, Repr

/-- Descending similarity score, the key of
`results.sort(key=lambda x: x["similarity_score"], reverse=True)`. -/
def scoreGE (a b : SearchResult) : Prop := b.similarity_score ≤ a.similarity_score

instance : DecidableRel scoreGE := fun a b =>
  inferInstanceAs (Decidable (b.similarity_score ≤ a.similarity_score))

instance : IsTotal SearchResult scoreGE := ⟨fun a b => le_total b.similarity_score a.similarity_score⟩

instance : IsTrans SearchResult scoreGE := ⟨fun _ _ _ h1 h2 => le_trans h2 h1⟩

/-- The body of the per-document loop of search_documents: keep the
document exactly when its similarity strictly exceeds the 0.1
relevance threshold, building the result row with its snippet. -/
def docHit (query : String) (doc : DocumentRec) : Option SearchResult :=
  let similarity_score := calculate_text_similarity (strLower query) (strLower doc.text)
  if (1 : ℚ)/10 < similarity_score then
    some { document_id := doc.id
           filename := doc.filename
           snippet := extract_relevant_snippet query doc.text 200
           similarity_score := similarity_score }
  else none

/-- search_documents of services/document_service.py.  The embedding
call and the database read are collaborator I/O: `embedding_ok` is
false when generate_embedding returns nothing, and `fetch` is the
outcome of the Document query (an exception anywhere in the body lands
in the `except` branch, which returns the empty list).  Kept documents
must exceed the 0.1 similarity threshold; survivors are sorted by
descending score and cut to `top_k` (5 at every call site). -/
def search_documents (query : String) (embedding_ok : Bool)
    (fetch : Except String (List DocumentRec)) (top_k : Nat) : List SearchResult :=
  match fetch with
  | .error _ => []
  | .ok documents =>
    if !embedding_ok then []
    else if documents.isEmpty then []
    else
      let results := documents.filterMap (docHit query)
      (List.insertionSort scoreGE results).take top_k

/-! ## Derived definitions and concrete inputs for the development -/

/-- The dictionary lookup `table.get(word, 0)` on the association-list
dict: the value of the first entry with the given key, 0 when absent. -/
def tableCount : List (String × Nat) → String → Nat
  | [], _ => 0
  | p :: rest, w => if p.1 = w then p.2 else tableCount rest w

/-- The keys of an association-list dict, in order. -/
def keysOf (table : List (String × Nat)) : List String := table.map Prod.fst

/-- The avoid phrases of build_prompt: words of the thumbs-down table
whose count exceeds 2. -/
def avoid_phrases (thumbs_down_messages : List String) : List String :=
  phrasesOverTwo (feedback_patterns thumbs_down_messages)

/-- The encourage phrases of build_prompt: words of the thumbs-up table
whose count exceeds 2. -/
def encourage_phrases (thumbs_up_messages : List String) : List String :=
  phrasesOverTwo (feedback_patterns thumbs_up_messages)

/-- Characters of a text of `n` single-letter words separated by single
spaces. -/
def wchars : Nat → List Char
  | 0 => []
  | 1 => ['w']
  | n + 2 => 'w' :: ' ' :: wchars (n + 1)

/-- A text of exactly `n` whitespace-separated words. -/
def wWords (n : Nat) : String := ⟨wchars n⟩

/-- A fragment whose estimate is 300.3 tokens (231 words), the weight-300
fragment of the worked overflow example. -/
def exFrag300 : String := wWords 231

/-- A fragment whose estimate is 10.4 tokens (8 words), the weight-10
fragment of the worked overflow example. -/
def exFrag10 : String := wWords 8

/-- The filtered keyword list extract_key_concepts hands to the set
enumeration for the C6 message. -/
def conceptsC6 : List String :=
  (findWords (strLower "analyze the alpha beta gamma concepts")).filter
    (fun w => w.length > 3 && !(stop_words.contains w))

/-- One faithful set enumeration: the distinct elements in dedup order. -/
def orderA : List String → List String := fun l => l.dedup

/-- Another faithful set enumeration: the same distinct elements
reversed. -/
def orderB : List String → List String := fun l => l.dedup.reverse

/-! ## Helper lemmas: concrete word strings for the worked examples -/

theorem splitAux_wchars :
    ∀ n, splitAux Char.isWhitespace (wchars n) [] = List.replicate n ['w']
  | 0 => by decide
  | 1 => by decide
  | n + 2 => by
    have ih := splitAux_wchars (n + 1)
    have hw : Char.isWhitespace 'w' = false := by decide
    have hs : Char.isWhitespace ' ' = true := by decide
    simp [wchars, splitAux, hw, hs, ih, List.replicate_succ]

theorem pySplit_wWords (n : Nat) : pySplit (wWords n) = List.replicate n "w" := by
  simp only [pySplit, wWords, splitAux_wchars, List.map_replicate]
  rfl

theorem estTokens10_wWords (n : Nat) : estTokens10 (wWords n) = 13 * n := by
  simp [estTokens10, pySplit_wWords]
  ring

theorem estTokens10_empty : estTokens10 "" = 0 := by decide

/-! ## Helper lemmas: stability of the priority sort -/

theorem filter_orderedInsert_of_ne (q : ContextPart → Bool) (a : ContextPart)
    (l : List ContextPart) (h : q a = false) :
    (List.orderedInsert partLE a l).filter q = l.filter q := by
  induction l with
  | nil => simp [List.orderedInsert, h]
  | cons b t ih =>
    by_cases hab : partLE a b
    · simp [List.orderedInsert, hab, h]
    · simp only [List.orderedInsert, if_neg hab, List.filter_cons]
      cases hqb : q b <;> simp [hqb, ih]

theorem filter_orderedInsert_of_eq (a : ContextPart) (l : List ContextPart)
    (hs : List.Sorted partLE l) :
    (List.orderedInsert partLE a l).filter (fun x => x.priority == a.priority)
      = a :: l.filter (fun x => x.priority == a.priority) := by
  induction l with
  | nil => simp [List.orderedInsert]
  | cons b t ih =>
    by_cases hab : partLE a b
    · simp [List.orderedInsert, hab]
    · have hlt : b.priority < a.priority := by
        simpa [partLE, Nat.not_le] using hab
      have hne : (b.priority == a.priority) = false := by
        simp [Nat.ne_of_lt hlt]
      simp only [List.orderedInsert, if_neg hab, List.filter_cons, hne]
      simpa [hne] using ih hs.tail

theorem sortParts_filter_priority (l : List ContextPart) (pr : Nat) :
    (sortParts l).filter (fun x => x.priority == pr) = l.filter (fun x => x.priority == pr) := by
  induction l with
  | nil => rfl
  | cons a t ih =>
    show (List.orderedInsert partLE a (List.insertionSort partLE t)).filter _ = _
    by_cases ha : a.priority = pr
    · subst ha
      rw [filter_orderedInsert_of_eq a _ (List.sorted_insertionSort partLE t)]
      have ih2 : (List.insertionSort partLE t).filter (fun x => x.priority == a.priority)
          = t.filter (fun x => x.priority == a.priority) := ih
      rw [ih2, List.filter_cons]
      simp
    · have hq : (fun x => x.priority == pr) a = false := by simp [ha]
      rw [filter_orderedInsert_of_ne _ a _ hq]
      simp only [List.filter_cons, hq, cond_false]
      exact ih

/-! ## Helper lemmas: shape of the greedy combine loop -/

theorem combineLoop_shape (b : ℤ) :
    ∀ (l : List ContextPart) (cur : ℤ),
      combineLoop b cur l = (greedyFulls b cur l).map CombinedItem.whole
      ∨ ∃ c m, combineLoop b cur l
          = (greedyFulls b cur l).map CombinedItem.whole ++ [CombinedItem.truncatedPart c m]
  | [], cur => by simp [combineLoop, greedyFulls]
  | p :: rest, cur => by
    by_cases h : cur + estTokens10 p.content < b
    · have ih := combineLoop_shape b rest (cur + estTokens10 p.content)
      rcases ih with ih | ⟨c, m, ih⟩
      · exact Or.inl (by simp [combineLoop, greedyFulls, h, ih])
      · exact Or.inr ⟨c, m, by simp [combineLoop, greedyFulls, h, ih]⟩
    · by_cases hr : b - cur - 1000 > 500
      · exact Or.inr ⟨p.content, Int.toNat ((b - cur - 1000) / 13),
          by simp [combineLoop, greedyFulls, h, hr]⟩
      · exact Or.inl (by simp [combineLoop, greedyFulls, h, hr])

theorem wholeContents_combineLoop (b : ℤ) :
    ∀ (l : List ContextPart) (cur : ℤ),
      wholeContents (combineLoop b cur l) = greedyFulls b cur l
  | [], cur => by simp [combineLoop, greedyFulls, wholeContents]
  | p :: rest, cur => by
    by_cases h : cur + estTokens10 p.content < b
    · have ih := wholeContents_combineLoop b rest (cur + estTokens10 p.content)
      simp [combineLoop, greedyFulls, h, wholeContents, List.filterMap_cons] at ih ⊢
      exact ih
    · by_cases hr : b - cur - 1000 > 500 <;>
        simp [combineLoop, greedyFulls, h, hr, wholeContents]

/-! ## Claim C1 -/

/-- C1: the context merge sorts fragments by ascending priority with a
stable sort (ties keep discovery order, stated as invariance of every
priority fibre), appends whole fragments while the running estimate
stays under the budget (the whole items are exactly the greedy prefix,
with at most one trailing truncated item and nothing after it), at the
first overflowing fragment includes the single token-trimmed partial
with the marker exactly when budget minus current estimate minus 100
exceeds 50 (in tenths: minus 1000, exceeds 500), and for budget 500 and
fragment weights [300, 300, 10] outputs fragment 1 whole, fragment 2
truncated with the "[Content truncated...]" marker, and drops
fragment 3 entirely. -/
theorem c1_combine_context_parts_spec :
    (∀ l : List ContextPart, List.Sorted partLE (sortParts l))
  ∧ (∀ (l : List ContextPart) (pr : Nat),
      (sortParts l).filter (fun x => x.priority == pr) = l.filter (fun x => x.priority == pr))
  ∧ (∀ (b cur : ℤ) (l : List ContextPart),
      combineLoop b cur l = (greedyFulls b cur l).map CombinedItem.whole
      ∨ ∃ c m, combineLoop b cur l
          = (greedyFulls b cur l).map CombinedItem.whole ++ [CombinedItem.truncatedPart c m])
  ∧ (∀ (b cur : ℤ) (p : ContextPart) (rest : List ContextPart),
      ¬(cur + estTokens10 p.content < b) →
      combineLoop b cur (p :: rest)
        = (if b - cur - 1000 > 500 then
             [CombinedItem.truncatedPart p.content (Int.toNat ((b - cur - 1000) / 13))]
           else []))
  ∧ (combineItems [⟨exFrag300, 1⟩, ⟨exFrag300, 2⟩, ⟨exFrag10, 3⟩] "" 500
      = [CombinedItem.whole exFrag300, CombinedItem.truncatedPart exFrag300 76])
  ∧ (_combine_context_parts [⟨exFrag300, 1⟩, ⟨exFrag300, 2⟩, ⟨exFrag10, 3⟩] "" 500
      = exFrag300 ++ "\n\n" ++ trim_text_to_token_limit exFrag300 76 ++ "\n[Content truncated...]") := by
  refine ⟨fun l => List.sorted_insertionSort partLE l,
          sortParts_filter_priority,
          fun b cur l => combineLoop_shape b l cur,
          ?_, ?_, ?_⟩
  · intro b cur p rest h
    simp [combineLoop, h]
  · decide
  · decide

/-- Witness for C1: the overflow conjunct applied at a concrete
fragment whose estimate misses the budget and whose remaining budget is
below the threshold, so nothing is emitted. -/
theorem c1_combine_context_parts_witness :
    ¬((0 : ℤ) + estTokens10 exFrag300 < 1000)
    ∧ combineLoop 1000 0 [⟨exFrag300, 1⟩]
        = (if (1000 : ℤ) - 0 - 1000 > 500 then
             [CombinedItem.truncatedPart exFrag300 (Int.toNat (((1000 : ℤ) - 0 - 1000) / 13))]
           else []) :=
  ⟨by decide, c1_combine_context_parts_spec.2.2.2.1 1000 0 ⟨exFrag300, 1⟩ [] (by decide)⟩

/-! ## Claim C9 -/

/-- The sorted order of the three C9 fragments is their discovery
order (priorities 1, 2, 3). -/
theorem c9_sort_eval :
    sortParts [⟨wWords 3077, 1⟩, ⟨wWords 3077, 2⟩, ⟨wWords 10, 3⟩]
      = [⟨wWords 3077, 1⟩, ⟨wWords 3077, 2⟩, ⟨wWords 10, 3⟩] := by
  simp [sortParts, List.insertionSort, List.orderedInsert, partLE]

/-- Evaluation of the merge on fragments of estimated weights
[4000.1, 4000.1, 13] under the default 8000 budget and an empty user
message: fragment 1 whole, fragment 2 truncated, fragment 3 dropped. -/
theorem c9_combine_eval :
    combineItems [⟨wWords 3077, 1⟩, ⟨wWords 3077, 2⟩, ⟨wWords 10, 3⟩] "" 8000
      = [CombinedItem.whole (wWords 3077), CombinedItem.truncatedPart (wWords 3077) 2999] := by
  unfold combineItems
  rw [c9_sort_eval, estTokens10_empty]
  simp only [combineLoop, estTokens10_wWords]
  norm_num
  decide

/-- C9 counterexample: under the default 8000 budget, the third
fragment satisfies the inequality of the claim (user-message estimate
plus the estimates of the previously included whole fragments plus its
own estimate stays strictly below 8000, in tenths 80000), yet it is not
included at all: the loop stopped at the overflowing second fragment. -/
theorem c9_counterexample_closed :
    estTokens10 "" + estTokens10 (wWords 3077) + estTokens10 (wWords 10) < 80000
    ∧ combineItems [⟨wWords 3077, 1⟩, ⟨wWords 3077, 2⟩, ⟨wWords 10, 3⟩] "" 8000
        = [CombinedItem.whole (wWords 3077), CombinedItem.truncatedPart (wWords 3077) 2999]
    ∧ CombinedItem.whole (wWords 10)
        ∉ combineItems [⟨wWords 3077, 1⟩, ⟨wWords 3077, 2⟩, ⟨wWords 10, 3⟩] "" 8000 := by
  refine ⟨?_, c9_combine_eval, ?_⟩
  · rw [estTokens10_empty, estTokens10_wWords, estTokens10_wWords]
    norm_num
  · rw [c9_combine_eval]
    decide

/-- C9 amended: the running estimate is initialized to the
user-message estimate (times 1.3, in tenths times 13), not to zero; the
fragments included whole are exactly the greedy prefix of the stably
sorted list (each successive fragment is admitted while the running
estimate plus its own estimate stays strictly below the 8000 budget,
and the scan stops for good at the first fragment that fails the test,
so fragments after the first overflow are omitted even when the
inequality of the original claim holds for them); consequently
lengthening only the user message can push fragments out of the merged
context although the user message is not part of the merged output. -/
theorem c9_merge_initialization_amended :
    (∀ (parts : List ContextPart) (msg : String) (b : Nat),
      combineItems parts msg b = combineLoop ((b : ℤ) * 10) (estTokens10 msg) (sortParts parts))
  ∧ (∀ (b cur : ℤ) (l : List ContextPart),
      wholeContents (combineLoop b cur l) = greedyFulls b cur l)
  ∧ (combineItems [⟨wWords 100, 1⟩] "" 8000 = [CombinedItem.whole (wWords 100)])
  ∧ (combineItems [⟨wWords 100, 1⟩] (wWords 6100) 8000 = []) := by
  refine ⟨fun parts msg b => rfl,
          fun b cur l => wholeContents_combineLoop b l cur, ?_, ?_⟩
  · unfold combineItems
    have hs : sortParts [(⟨wWords 100, 1⟩ : ContextPart)] = [⟨wWords 100, 1⟩] := rfl
    rw [hs, estTokens10_empty]
    simp only [combineLoop, estTokens10_wWords]
    norm_num
  · unfold combineItems
    have hs : sortParts [(⟨wWords 100, 1⟩ : ContextPart)] = [⟨wWords 100, 1⟩] := rfl
    rw [hs]
    simp only [combineLoop, estTokens10_wWords]
    norm_num

/-! ## Claim C2 -/

/-- C2 (refuted by the code): get_llm_response is a synchronous
function whose provider loop calls the `async def` providers without
awaiting them, so the first call — OpenAI — returns its un-awaited
coroutine, which the loop records as a success: for every combination
of provider outcomes the function returns that coroutine and invokes no
other provider.  When the caller awaits the returned value (routers/
chat.py line 158), an OpenAI failure propagates as an exception even
while Groq and NGU would succeed, and the aggregated apology value is
unreachable.  The last two conjuncts show the intended chain of the
spec (every provider body run at its place in the chain) does satisfy
the claim: first success wins with no later provider attempted, and
total failure returns the apology string embedding every
semicolon-joined (providerName, reason) message. -/
theorem c2_get_llm_response_code_bug :
    (∀ o g n : Except String String,
      get_llm_response o g n = (PyValue.coroutine o, ["OpenAI"]))
  ∧ (chat_llm_step (.error "OpenAI API call failed: API key not configured")
        (.ok "groq reply") (.ok "ngu reply")
      = .error "OpenAI API call failed: API key not configured")
  ∧ (∀ t g n, get_llm_response_intended (.ok t) g n = (t, ["OpenAI"]))
  ∧ (∀ e1 e2 e3, get_llm_response_intended (.error e1) (.error e2) (.error e3)
      = (apologyText (String.intercalate "; "
          ["OpenAI failed: " ++ e1, "Groq failed: " ++ e2, "NGU failed: " ++ e3]),
         ["OpenAI", "Groq", "NGU"])) :=
  ⟨fun _ _ _ => rfl, rfl, fun _ _ _ => rfl, fun _ _ _ => rfl⟩

/-! ## Claim C3 -/

/-- C3: under the modelled tokenizer, the trimmed text always encodes
to at most the budget; a text already within budget is returned
unchanged; and the result is either the unchanged input or decodes the
leading budget-many tokens (prefix-preserving, deterministic by being a
pure function). -/
theorem c3_trim_text_to_token_limit_spec :
    ∀ (t : String) (b : Nat),
      (tokEncode (trim_text_to_token_limit t b)).length ≤ b
      ∧ ((tokEncode t).length ≤ b → trim_text_to_token_limit t b = t)
      ∧ (trim_text_to_token_limit t b = t
         ∨ tokEncode (trim_text_to_token_limit t b) = (tokEncode t).take b) := by
  intro t b
  by_cases h : t.data.length ≤ b
  · have he : trim_text_to_token_limit t b = t := if_pos h
    rw [he]
    exact ⟨h, fun _ => rfl, Or.inl rfl⟩
  · have he : trim_text_to_token_limit t b = ⟨t.data.take b⟩ := if_neg h
    rw [he]
    refine ⟨?_, fun hc => absurd hc h, Or.inr ?_⟩
    · simpa [tokEncode] using List.length_take_le b t.data
    · rfl

/-- Witness for C3: a five-token text under a ten-token budget comes
back unchanged. -/
theorem c3_trim_text_to_token_limit_witness :
    (tokEncode "hello").length ≤ 10 ∧ trim_text_to_token_limit "hello" 10 = "hello" :=
  ⟨by decide, (c3_trim_text_to_token_limit_spec "hello" 10).2.1 (by decide)⟩

/-! ## Claim C5 -/

/-- C5: the classifier is total — every message lands in one of the
five categories (determinism is inherent: the embedding is a pure
function of the message) — and the keyword sets are tested in the fixed
priority order analytical, procedural, creative, comparative, with
factual as the default, so a message matching two sets gets the
category tested first. -/
theorem c5_classify_question_spec :
    (∀ m, classify_question m ∈
      [QuestionType.analytical, QuestionType.procedural, QuestionType.creative,
       QuestionType.comparative, QuestionType.factual])
  ∧ (∀ m, hasKeyword analytical_keywords m = true → classify_question m = .analytical)
  ∧ (∀ m, hasKeyword analytical_keywords m = false →
        hasKeyword procedural_keywords m = true → classify_question m = .procedural)
  ∧ (∀ m, hasKeyword analytical_keywords m = false →
        hasKeyword procedural_keywords m = false →
        hasKeyword creative_keywords m = true → classify_question m = .creative)
  ∧ (∀ m, hasKeyword analytical_keywords m = false →
        hasKeyword procedural_keywords m = false →
        hasKeyword creative_keywords m = false →
        hasKeyword comparative_keywords m = true → classify_question m = .comparative)
  ∧ (∀ m, hasKeyword analytical_keywords m = false →
        hasKeyword procedural_keywords m = false →
        hasKeyword creative_keywords m = false →
        hasKeyword comparative_keywords m = false → classify_question m = .factual) := by
  refine ⟨?_, ?_, ?_, ?_, ?_, ?_⟩
  · intro m
    unfold classify_question
    split_ifs <;> simp
  · intro m h1
    simp [classify_question, h1]
  · intro m h1 h2
    simp [classify_question, h1, h2]
  · intro m h1 h2 h3
    simp [classify_question, h1, h2, h3]
  · intro m h1 h2 h3 h4
    simp [classify_question, h1, h2, h3, h4]
  · intro m h1 h2 h3 h4
    simp [classify_question, h1, h2, h3, h4]

/-- Witness for C5: "step by step design" contains a procedural keyword
("step") and a creative keyword ("design") but no analytical keyword,
and is classified procedural — the set tested first wins. -/
theorem c5_classify_question_witness :
    hasKeyword analytical_keywords "step by step design" = false
    ∧ hasKeyword procedural_keywords "step by step design" = true
    ∧ hasKeyword creative_keywords "step by step design" = true
    ∧ classify_question "step by step design" = .procedural :=
  ⟨by decide, by decide, by decide,
   c5_classify_question_spec.2.2.1 "step by step design" (by decide) (by decide)⟩

/-! ## Claim C6 -/

/-- C6 (refuted by the code): both enumerations are valid orders of the
same Python set, yet all three reasoning generators produce different
narrative text under them on identical inputs, because the
`list(set(...))` order of extract_key_concepts reaches the output
verbatim; across two program runs the set order may differ (string
hash randomization), so the narratives are not identical on every run. -/
theorem c6_reasoning_set_order_dependent :
    ValidSetOrder orderA conceptsC6
    ∧ ValidSetOrder orderB conceptsC6
    ∧ extract_key_concepts orderA "analyze the alpha beta gamma concepts"
        ≠ extract_key_concepts orderB "analyze the alpha beta gamma concepts"
    ∧ chain_of_thought_reasoning orderA "" "analyze the alpha beta gamma concepts" none
        ≠ chain_of_thought_reasoning orderB "" "analyze the alpha beta gamma concepts" none
    ∧ react_reasoning orderA "" "analyze the alpha beta gamma concepts" none
        ≠ react_reasoning orderB "" "analyze the alpha beta gamma concepts" none
    ∧ hybrid_reasoning orderA "" "analyze the alpha beta gamma concepts" none
        ≠ hybrid_reasoning orderB "" "analyze the alpha beta gamma concepts" none := by
  refine ⟨?_, ?_, by decide, by decide, by decide, by decide⟩
  · exact List.Perm.refl _
  · exact (conceptsC6.dedup).reverse_perm

/-! ## Claim C7 -/

/-- C7: whatever exception message the body of build_context raises,
the call returns the degraded bundle — context is the fixed fallback
phrase followed by the user message, the sources list is empty, the
metadata records the error text — and the original user message is
preserved unchanged in the bundle. -/
theorem c7_build_context_degraded_bundle :
    ∀ (msg e : String),
      build_context msg (.error e)
        = { context := "I\x27ll help you with: " ++ msg
            reasoning := none
            sources_used := []
            error := some e
            user_message := msg
            question_type := none }
      ∧ (build_context msg (.error e)).user_message = msg
      ∧ (build_context msg (.error e)).sources_used = [] :=
  fun _ _ => ⟨rfl, rfl, rfl⟩

/-! ## Helper lemmas: the word-frequency dict -/

theorem tableCount_bumpWord (w x : String) :
    ∀ t : List (String × Nat),
      tableCount (bumpWord t w) x = if x = w then tableCount t x + 1 else tableCount t x
  | [] => by
    by_cases hxw : x = w
    · simp [bumpWord, tableCount, hxw]
    · simp [bumpWord, tableCount, hxw, Ne.symm hxw]
  | (k, v) :: rest => by
    have ih := tableCount_bumpWord w x rest
    by_cases hkw : k = w
    · subst hkw
      by_cases hkx : k = x
      · subst hkx
        simp [bumpWord, tableCount]
      · have hxw : ¬x = k := fun h => hkx h.symm
        simp [bumpWord, tableCount, hkx, hxw]
    · by_cases hkx : k = x
      · subst hkx
        have hxw : ¬k = w := hkw
        simp [bumpWord, tableCount, hkw, hxw]
      · simp [bumpWord, tableCount, hkw, hkx, ih]

theorem tableCount_foldl (x : String) :
    ∀ (ws : List String) (acc : List (String × Nat)),
      tableCount (ws.foldl bumpWord acc) x = tableCount acc x + ws.count x
  | [], acc => by simp [List.count_nil]
  | w :: rest, acc => by
    have ih := tableCount_foldl x rest (bumpWord acc w)
    simp only [List.foldl_cons, ih, tableCount_bumpWord]
    by_cases hxw : x = w
    · subst hxw
      simp [List.count_cons]
      omega
    · have : ¬(w == x) = true := by simpa [beq_iff_eq] using fun h => hxw h.symm
      simp [List.count_cons, hxw, this]

theorem keysOf_bumpWord (w : String) :
    ∀ t : List (String × Nat),
      keysOf (bumpWord t w) = if w ∈ keysOf t then keysOf t else keysOf t ++ [w]
  | [] => by simp [bumpWord, keysOf]
  | (k, v) :: rest => by
    have ih := keysOf_bumpWord w rest
    by_cases hkw : k = w
    · subst hkw
      simp [bumpWord, keysOf]
    · have hwk : ¬w = k := fun h => hkw h.symm
      simp [bumpWord, keysOf, hkw, hwk] at ih ⊢
      by_cases hin : w ∈ List.map Prod.fst rest <;> simp [hin] at ih ⊢ <;> simp [ih, hwk]

theorem keysNodup_bumpWord (w : String) (t : List (String × Nat))
    (h : (keysOf t).Nodup) : (keysOf (bumpWord t w)).Nodup := by
  rw [keysOf_bumpWord]
  by_cases hin : w ∈ keysOf t
  · simpa [hin] using h
  · simp only [hin, if_false]
    simpa [List.nodup_append] using ⟨h, hin⟩

theorem keysNodup_foldl :
    ∀ (ws : List String) (acc : List (String × Nat)),
      (keysOf acc).Nodup → (keysOf (ws.foldl bumpWord acc)).Nodup
  | [], acc => fun h => h
  | w :: rest, acc => fun h =>
      keysNodup_foldl rest (bumpWord acc w) (keysNodup_bumpWord w acc h)

theorem tableCount_of_mem :
    ∀ (t : List (String × Nat)), (keysOf t).Nodup →
      ∀ (w : String) (c : Nat), (w, c) ∈ t → tableCount t w = c
  | [], _, w, c, hmem => absurd hmem (List.not_mem_nil _)
  | (k, v) :: rest, hnd, w, c, hmem => by
    rcases List.mem_cons.1 hmem with heq | hrest
    · cases heq
      simp [tableCount]
    · have hnd2 : k ∉ keysOf rest ∧ (keysOf rest).Nodup :=
        List.nodup_cons.1 (show (k :: keysOf rest).Nodup from hnd)
      have hkw : ¬k = w := by
        intro hk
        subst hk
        exact hnd2.1 (List.mem_map.2 ⟨(k, c), hrest, rfl⟩)
      simpa [tableCount, hkw] using tableCount_of_mem rest hnd2.2 w c hrest

theorem entry_of_tableCount_pos :
    ∀ (t : List (String × Nat)) (w : String),
      0 < tableCount t w → (w, tableCount t w) ∈ t
  | [], w, h => absurd h (by simp [tableCount])
  | (k, v) :: rest, w, h => by
    by_cases hkw : k = w
    · subst hkw
      simp [tableCount] at h ⊢
    · have h2 : 0 < tableCount rest w := by simpa [tableCount, hkw] using h
      have := entry_of_tableCount_pos rest w h2
      simp [tableCount, hkw]
      exact Or.inr this

theorem mem_phrasesOverTwo_iff (msgs : List String) (w : String) :
    w ∈ phrasesOverTwo (feedback_patterns msgs) ↔ 2 < (allFeedbackWords msgs).count w := by
  have hperm : (feedback_patterns msgs).Perm (buildCounts msgs) :=
    List.perm_insertionSort countGE (buildCounts msgs)
  have hfold : ∀ x, tableCount (buildCounts msgs) x = (allFeedbackWords msgs).count x :=
    fun x => by simpa [tableCount] using tableCount_foldl x (allFeedbackWords msgs) []
  have hnd : (keysOf (buildCounts msgs)).Nodup :=
    keysNodup_foldl (allFeedbackWords msgs) [] (by simp [keysOf])
  constructor
  · intro hw
    rcases List.mem_map.1 hw with ⟨p, hpmem, hpw⟩
    rcases List.mem_filter.1 hpmem with ⟨hsorted, hgt⟩
    have hmem : p ∈ buildCounts msgs := hperm.subset hsorted
    have hix : tableCount (buildCounts msgs) p.1 = p.2 :=
      tableCount_of_mem _ hnd p.1 p.2 (by simpa using hmem)
    have hgt2 : 2 < p.2 := by simpa using hgt
    rw [← hpw, ← hfold p.1, hix]
    exact hgt2
  · intro hcnt
    have hpos : 0 < tableCount (buildCounts msgs) w := by
      rw [hfold w]
      omega
    have hmem : (w, tableCount (buildCounts msgs) w) ∈ buildCounts msgs :=
      entry_of_tableCount_pos _ w hpos
    have hmem2 : (w, tableCount (buildCounts msgs) w) ∈ feedback_patterns msgs :=
      hperm.mem_iff.2 hmem
    refine List.mem_map.2 ⟨(w, tableCount (buildCounts msgs) w), List.mem_filter.2 ⟨hmem2, ?_⟩, rfl⟩
    simp only [decide_eq_true_eq, hfold w]
    omega

/-! ## Claim C8 -/

/-- C8: a word is surfaced as an avoid phrase (thumbs-down table) or an
encourage phrase (thumbs-up table) exactly when its accumulated count
across the entire flagged message set exceeds 2; on the boundary, "bad"
with count 2 over ["bad answer", "bad format"] is excluded, and with
count 3 after adding "bad style" it is included. -/
theorem c8_feedback_phrase_threshold :
    (∀ (msgs : List String) (w : String),
      w ∈ avoid_phrases msgs ↔ 2 < (allFeedbackWords msgs).count w)
  ∧ (∀ (msgs : List String) (w : String),
      w ∈ encourage_phrases msgs ↔ 2 < (allFeedbackWords msgs).count w)
  ∧ (allFeedbackWords ["bad answer", "bad format"]).count "bad" = 2
  ∧ avoid_phrases ["bad answer", "bad format"] = []
  ∧ (allFeedbackWords ["bad answer", "bad format", "bad style"]).count "bad" = 3
  ∧ avoid_phrases ["bad answer", "bad format", "bad style"] = ["bad"]
  ∧ encourage_phrases ["bad answer", "bad format"] = []
  ∧ encourage_phrases ["bad answer", "bad format", "bad style"] = ["bad"] :=
  ⟨mem_phrasesOverTwo_iff, mem_phrasesOverTwo_iff,
   by decide, by decide, by decide, by decide, by decide, by decide⟩

/-! ## Claim C10 -/

/-- Every result row kept by the per-document test strictly exceeds the
0.1 threshold. -/
theorem docHit_score_gt (q : String) (d : DocumentRec) (r : SearchResult)
    (h : docHit q d = some r) : (1 : ℚ)/10 < r.similarity_score := by
  by_cases hc : (1 : ℚ)/10 < calculate_text_similarity (strLower q) (strLower d.text)
  · have h2 := h
    unfold docHit at h2
    rw [if_pos hc] at h2
    cases h2
    simpa using hc
  · have h2 := h
    unfold docHit at h2
    rw [if_neg hc] at h2
    cases h2

/-- C10: search_documents returns at most 5 rows when called with the
default top_k of 5; every returned row has similarity strictly above
0.1 (stated as: the count of returned rows at or below the threshold is
zero); the returned rows are sorted by descending similarity; a raised
exception in the body (the database fetch) yields the empty list, as
does a failed query embedding. -/
theorem c10_search_documents_spec :
    (∀ (q : String) (e : Bool) (f : Except String (List DocumentRec)),
      (search_documents q e f 5).length ≤ 5)
  ∧ (∀ (q : String) (e : Bool) (f : Except String (List DocumentRec)),
      (search_documents q e f 5).countP
        (fun r => decide (r.similarity_score ≤ (1 : ℚ)/10)) = 0)
  ∧ (∀ (q : String) (e : Bool) (f : Except String (List DocumentRec)),
      List.Sorted scoreGE (search_documents q e f 5))
  ∧ (∀ (q : String) (e : Bool) (msg : String),
      search_documents q e (.error msg) 5 = [])
  ∧ (∀ (q : String) (docs : List DocumentRec),
      search_documents q false (.ok docs) 5 = []) := by
  have hmem : ∀ (q : String) (e : Bool) (f : Except String (List DocumentRec))
      (r : SearchResult), r ∈ search_documents q e f 5 →
      (1 : ℚ)/10 < r.similarity_score := by
    intro q e f r hr
    match f with
    | .error msg => exact absurd hr (by simp [search_documents])
    | .ok docs =>
      have hr0 : r ∈ (if (!e) = true then ([] : List SearchResult)
          else if docs.isEmpty = true then []
          else (List.insertionSort scoreGE (docs.filterMap (docHit q))).take 5) := hr
      by_cases he : (!e) = true
      · rw [if_pos he] at hr0
        exact absurd hr0 (List.not_mem_nil r)
      · rw [if_neg he] at hr0
        by_cases hd : docs.isEmpty = true
        · rw [if_pos hd] at hr0
          exact absurd hr0 (List.not_mem_nil r)
        · rw [if_neg hd] at hr0
          have hr2 : r ∈ List.insertionSort scoreGE (docs.filterMap (docHit q)) :=
            List.mem_of_mem_take hr0
          have hr3 : r ∈ docs.filterMap (docHit q) :=
            (List.perm_insertionSort scoreGE _).subset hr2
          rcases List.mem_filterMap.1 hr3 with ⟨d, _, hd2⟩
          exact docHit_score_gt q d r hd2
  refine ⟨?_, ?_, ?_, ?_, ?_⟩
  · intro q e f
    match f with
    | .error msg => simp [search_documents]
    | .ok docs =>
      show (if (!e) = true then ([] : List SearchResult)
          else if docs.isEmpty = true then []
          else (List.insertionSort scoreGE (docs.filterMap (docHit q))).take 5).length ≤ 5
      by_cases he : (!e) = true
      · simp [he]
      · by_cases hd : docs.isEmpty = true <;>
          simp [he, hd, List.length_take_le]
  · intro q e f
    rw [List.countP_eq_zero]
    intro r hr
    have := hmem q e f r hr
    simp only [decide_eq_true_eq]
    intro hle
    exact absurd this (not_lt.2 hle)
  · intro q e f
    match f with
    | .error msg => simp [search_documents, List.Sorted]
    | .ok docs =>
      show List.Sorted scoreGE
        (if (!e) = true then ([] : List SearchResult)
         else if docs.isEmpty = true then []
         else (List.insertionSort scoreGE (docs.filterMap (docHit q))).take 5)
      by_cases he : (!e) = true
      · simp [he, List.Sorted]
      · by_cases hd : docs.isEmpty = true
        · simp [he, hd, List.Sorted]
        · rw [if_neg he, if_neg hd]
          exact (List.sorted_insertionSort scoreGE _).sublist (List.take_sublist 5 _)
  · intro q e msg
    rfl
  · intro q docs
    rfl
